import Mathlib

/-!
Verification of the ParrotEsolang compiler against its specification.

Two compiler implementations are modelled:
* `src/compiler/linux/prrt_compiler_linux_v1.py` (the Windows variant
  `prrt_compiler_windows_v1.py` shares the identical front end — lex, parse,
  semantic_check, generate_ir — and differs only in the emitted strings):
  a line-oriented compiler.  Modelled in namespace `PL`.
* `src/compiler/parrot_compiler.py`: a token-oriented compiler (lexer,
  token parser, C code generator).  Modelled in namespace `PC`.

Python-specific machinery is embedded as follows: Python lists become Lean
lists; Python dicts become association lists with first-occurrence
lookup/replacement (Python redefinition keeps the key position, appends new
keys at the end); `sys.exit`/raised exceptions become `Except`/`Option`
results; while-loops that advance an index by at least one per iteration
become fuel-indexed recursions whose fuel is an upper bound on the number of
iterations.  String classification (`isalpha` etc.) is modelled with Lean's
ASCII character predicates; all programs in the claims are ASCII.
-/

namespace PL

/-- Single quote character (apostrophe), used inside emitted strings. -/
def sq : String := String.mk [Char.ofNat 39]

/-- Double quote character. -/
def dqc : Char := Char.ofNat 34

/-- Split a character list at every character satisfying the predicate. -/
def splitOnP (p : Char → Bool) : List Char → List (List Char)
  | [] => [[]]
  | c :: cs =>
    let r := splitOnP p cs
    if p c then [] :: r
    else match r with
      | [] => [[c]]
      | h :: t => (c :: h) :: t

/-- Python `str.split()` with no argument: split on whitespace runs,
dropping empty pieces. -/
def pySplit (s : String) : List String :=
  ((splitOnP Char.isWhitespace s.data).filter (fun w => w ≠ [])).map
    String.mk

/-- Python `str.strip()` (whitespace from both ends). -/
def pyStrip (s : String) : String :=
  String.mk (((s.data.dropWhile Char.isWhitespace).reverse.dropWhile
    Char.isWhitespace).reverse)

/-- Python `str.rstrip()` (whitespace from the right end). -/
def pyRstrip (s : String) : String :=
  String.mk ((s.data.reverse.dropWhile Char.isWhitespace).reverse)

/-- Python `str.startswith`. -/
def pyStartsWith (pre s : String) : Bool :=
  pre.data.isPrefixOf s.data

/-- Python `s.rstrip(":")`: remove every trailing colon. -/
def rstripColons (s : String) : String :=
  String.mk (((s.data.reverse).dropWhile (fun c => c = ':')).reverse)

/-- Python `s.strip(c)` for a single character: drop that character from
both ends. -/
def stripChar (c : Char) (s : String) : String :=
  String.mk ((((s.data.dropWhile (fun x => x = c)).reverse).dropWhile
    (fun x => x = c)).reverse)

/-- Leading-whitespace width of a line: Python
`len(line) - len(line.lstrip())`. -/
def indentOf (line : String) : Nat :=
  (line.data.takeWhile Char.isWhitespace).length

/-- First-occurrence lookup in an association list modelling a Python dict. -/
def dictGet {α : Type} : List (String × α) → String → Option α
  | [], _ => none
  | (k, v) :: d, key => if k = key then some v else dictGet d key

/-- Python `d[k] = v`: replace the first entry for `k`, or append a new one. -/
def dictSet {α : Type} : List (String × α) → String → α → List (String × α)
  | [], key, v => [(key, v)]
  | (k, w) :: d, key, v =>
    if k = key then (key, v) :: d else (k, w) :: dictSet d key v

/-- Python `d[k].append(x)` on a dict of lists; a no-op when the key is
absent (the compiler only appends under keys it has created). -/
def dictApp {α : Type} : List (String × List α) → String → α →
    List (String × List α)
  | [], _, _ => []
  | (k, w) :: d, key, v =>
    if k = key then (k, w ++ [v]) :: d else (k, w) :: dictApp d key v

/-- Key-membership test on an association list (Python `k in d`). -/
def containsKey {α : Type} : List (String × α) → String → Bool
  | [], _ => false
  | (k, _) :: d, key => k = key || containsKey d key

/-- An AST/IR node of the line-oriented compiler: the Python dict
`{"instr": instr, "args": args}`. -/
structure Node where
  instr : String
  args : List String
deriving DecidableEq, Repr

/-- The mutable parser state of `ParrotCompiler.parse`:
`indent_stack` (top of the Python stack is the head here), `self.ast`,
`self.macros`, `self.labels` and the `current_macro` local (field `cm`). -/
structure PState where
  indent_stack : List Nat
  ast : List Node
  macros : List (String × List Node)
  labels : List (String × Nat)
  cm : Option String
deriving DecidableEq, Repr

/-- Initial parser state: `indent_stack = [0]`, everything else empty. -/
def initState : PState := ⟨[0], [], [], [], none⟩

/-- Python truthiness of the `current_macro` variable: `None` and the empty
string are falsy. -/
def pyTruthy : Option String → Bool
  | none => false
  | some s => s ≠ ""

/-- `while indent < indent_stack[-1]: indent_stack.pop()`. -/
def popStack (indent : Nat) : List Nat → List Nat
  | [] => []
  | t :: rest => if indent < t then popStack indent rest else t :: rest

/-- Split a character list at every occurrence of a separator character. -/
def splitOnChar (sep : Char) : List Char → List (List Char)
  | [] => [[]]
  | c :: cs =>
    let r := splitOnChar sep cs
    if c = sep then [] :: r
    else match r with
      | [] => [[c]]
      | h :: t => (c :: h) :: t

/-- Phase 1, `ParrotCompiler.lex`: split into lines, keep the non-blank
lines that are not `:>` comments, right-stripped. -/
def lex (code : String) : List String :=
  (((splitOnChar '\n' code.data).map String.mk).filter
    (fun l => pyStrip l ≠ "" && !(pyStartsWith ":>" (pyStrip l)))).map
    pyRstrip

/-- Phase 2, the body of the `for line in self.tokens` loop of
`ParrotCompiler.parse`, acting on one line.  (The Python local
`current_block` is write-only in the source and is not modelled.) -/
def parseLine (st : PState) (line : String) : PState :=
  let indent := indentOf line
  let parts := pySplit (pyStrip line)
  let instr := parts.headD ""
  let args := parts.tail
  if instr = "chirp" then
    let name := rstripColons (args.headD "")
    { st with macros := dictSet st.macros name [],
              indent_stack := indent :: st.indent_stack,
              cm := some name }
  else
    let st1 :=
      if instr = "perch" then
        { st with labels :=
            dictSet st.labels (rstripColons (args.headD "")) st.ast.length }
      else st
    let node : Node := ⟨instr, args⟩
    let top := st1.indent_stack.headD 0
    let stack2 :=
      if top < indent then indent :: st1.indent_stack
      else if indent < top then popStack indent st1.indent_stack
      else st1.indent_stack
    let cm2 := if indent < top then none else st1.cm
    if pyTruthy cm2 && decide (stack2.headD 0 ≤ indent) then
      { st1 with indent_stack := stack2, cm := cm2,
                 macros := dictApp st1.macros (cm2.getD "") node }
    else
      { st1 with indent_stack := stack2, cm := cm2,
                 ast := st1.ast ++ [node] }

/-- Phase 2, `ParrotCompiler.parse`: fold the per-line step over the lexed
lines. -/
def parseProg (lines : List String) : PState :=
  lines.foldl parseLine initState

/-- Phase 3, `ParrotCompiler.semantic_check`: raise (here: return as error)
the first top-level `flyto` node without arguments. -/
def semantic_check : List Node → Except Node Unit
  | [] => .ok ()
  | n :: ns =>
    if n.instr = "flyto" && n.args.isEmpty then .error n
    else semantic_check ns

/-- Phase 4, `ParrotCompiler.generate_ir`: expand each top-level node whose
instruction names a macro into that macro's body (one level). -/
def generate_ir (macros : List (String × List Node)) (ast : List Node) :
    List Node :=
  ast.flatMap (fun n =>
    match dictGet macros n.instr with
    | some body => body
    | none => [n])

/-- The parsed state of a source program given as raw lines. -/
def parsed (lines : List String) : PState := parseProg lines

/-- The flat IR of a source program given as raw lines. -/
def irOf (lines : List String) : List Node :=
  generate_ir (parsed lines).macros (parsed lines).ast

/-- First instruction word of a raw source line. -/
def instrOf (line : String) : String := (pySplit (pyStrip line)).headD ""

/-- The node a non-`chirp` line parses to. -/
def nodeOf (line : String) : Node :=
  ⟨(pySplit (pyStrip line)).headD "", (pySplit (pyStrip line)).tail⟩

/-- State of Phase 6, `ParrotCompiler.generate_asm`: the `str_N` counter and
the accumulated assembly lines. -/
structure AsmState where
  label_count : Nat
  asm_lines : List String
deriving DecidableEq, Repr

/-- The fixed assembly prologue `generate_asm` starts from. -/
def asmHeader : List String :=
  ["section .data",
   "newline db 10, 0",
   "input_prompt db " ++ sq ++ "Feed the birb: " ++ sq ++ ", 0",
   "input_buffer resb 128",
   "section .bss",
   "tape resb 30000",
   "section .text",
   "global _start",
   "_start:",
   "    mov rsi, tape"]

/-- Initial backend state. -/
def initAsm : AsmState := ⟨0, asmHeader⟩

/-- Python `list.insert(1, x)` (clamping, as Python does on short lists). -/
def pyInsert1 (xs : List String) (x : String) : List String :=
  match xs with
  | [] => [x]
  | h :: t => h :: x :: t

/-- The operator-to-branch table of the `flap` arm. -/
def jmpOp (op : String) : Option String :=
  if op = "==" then some "je"
  else if op = "!=" then some "jne"
  else if op = ">" then some "jg"
  else if op = "<" then some "jl"
  else if op = ">=" then some "jge"
  else if op = "<=" then some "jle"
  else none

/-- One iteration of the `for node in self.ir` loop of the Linux
`generate_asm`.  `none` models an uncaught Python exception: `args[0]` on an
empty list (IndexError), unpacking `args` of the wrong arity (ValueError),
or a `jmp_op` lookup miss (KeyError).  An instruction matching no branch of
the `if`/`elif` chain leaves the state unchanged. -/
def genAsmStep (st : AsmState) (node : Node) : Option AsmState :=
  let app (ls : List String) : Option AsmState :=
    some { st with asm_lines := st.asm_lines ++ ls }
  let instr := node.instr
  let args := node.args
  if instr = "peck" then app ["    inc byte [rsi]"]
  else if instr = "scratch" then app ["    dec byte [rsi]"]
  else if instr = "hop" then app ["    inc rsi"]
  else if instr = "hopback" then app ["    dec rsi"]
  else if instr = "squawk" then
    app ["    mov rax, 1", "    mov rdi, 1", "    mov rdx, 1",
         "    mov rsi, rsi", "    syscall"]
  else if instr = "mimic" then
    let label := "str_" ++ toString st.label_count
    let str := stripChar dqc (String.intercalate " " args)
    some { label_count := st.label_count + 1,
           asm_lines :=
             pyInsert1 st.asm_lines
               (label ++ " db " ++ String.mk [dqc] ++ str ++ String.mk [dqc]
                 ++ ", 10, 0")
             ++ ["    mov rax, 1", "    mov rdi, 1",
                 "    mov rsi, " ++ label,
                 "    mov rdx, " ++ toString (str.length + 1),
                 "    syscall"] }
  else if instr = "gulp" then
    app ["    mov rax, 0", "    mov rdi, 0", "    mov rsi, rsi",
         "    mov rdx, 1", "    syscall"]
  else if instr = "devour" then
    app ["    mov rax, 0", "    mov rdi, 0", "    mov rsi, rsi",
         "    mov rdx, 128", "    syscall"]
  else if instr = "regurgitate" then
    app [".reg_loop:", "    mov al, [rsi]", "    cmp al, 0",
         "    je .reg_end", "    mov rax, 1", "    mov rdi, 1",
         "    mov rdx, 1", "    syscall", "    inc rsi",
         "    jmp .reg_loop", ".reg_end:"]
  else if instr = "flyto" then
    match args with
    | a0 :: _ => app ["    jmp ." ++ a0]
    | [] => none
  else if instr = "perch" then
    match args with
    | a0 :: _ => app ["." ++ a0 ++ ":"]
    | [] => none
  else if instr = "flap" then
    match args with
    | [label, left, op, right] =>
      let l := if left = "bowl" then "byte [rsi]" else left
      let r := if right = "empty" then "0"
               else if right = "bowl" then "byte [rsi]" else right
      match jmpOp op with
      | some j =>
        app ["    movzx rax, " ++ l, "    cmp rax, " ++ r,
             "    " ++ j ++ " ." ++ label]
      | none => none
    | _ => none
  else if instr = "add" then
    match args with
    | [dest, val] =>
      if dest = "bowl" then app ["    add byte [rsi], " ++ val] else some st
    | _ => none
  else if instr = "sub" then
    match args with
    | [dest, val] =>
      if dest = "bowl" then app ["    sub byte [rsi], " ++ val] else some st
    | _ => none
  else if instr = "bob" then
    match args with
    | a0 :: _ => app ["    mov rcx, " ++ a0 ++ " ; bob head delay placeholder"]
    | [] => none
  else if instr = "preen" then app ["    mov rsi, tape"]
  else if instr = "poop" then app ["    mov byte [rsi], 0"]
  else if instr = "perish" then
    app ["    mov rax, 60", "    xor rdi, rdi", "    syscall"]
  else some st

/-- The full `for node in self.ir` loop, threading the crash possibility. -/
def genAsmList (st : AsmState) : List Node → Option AsmState
  | [] => some st
  | n :: ns =>
    match genAsmStep st n with
    | some st2 => genAsmList st2 ns
    | none => none

/-- `generate_asm` on a flat IR: the emitted target text as a line list. -/
def generate_asm (ir : List Node) : Option (List String) :=
  (genAsmList initAsm ir).map AsmState.asm_lines

/-- Opcodes handled by some branch of the Linux backend dispatch. -/
def recognized (instr : String) : Bool :=
  instr = "peck" || instr = "scratch" || instr = "hop" ||
  instr = "hopback" || instr = "squawk" || instr = "mimic" ||
  instr = "gulp" || instr = "devour" || instr = "regurgitate" ||
  instr = "flyto" || instr = "perch" || instr = "flap" ||
  instr = "add" || instr = "sub" || instr = "bob" ||
  instr = "preen" || instr = "poop" || instr = "perish"

/-- Failure modes of the whole pipeline: the `SyntaxError` raised by
`semantic_check` (carrying the offending node), or an uncaught exception in
`generate_asm`. -/
inductive CompileError where
  | semanticError (n : Node)
  | backendError
deriving DecidableEq, Repr

/-- The full Linux pipeline from `__main__`: lex, parse, semantic_check,
generate_ir, generate_asm (the optimize phase is a `pass`). -/
def compileLinux (code : String) : Except CompileError (List String) :=
  let st := parseProg (lex code)
  match semantic_check st.ast with
  | .error n => .error (.semanticError n)
  | .ok () =>
    match generate_asm (generate_ir st.macros st.ast) with
    | some lines => .ok lines
    | none => .error .backendError

/-- All nodes held by the parser state: the top-level sequence followed by
every macro body, in table order. -/
def allNodes (st : PState) : List Node :=
  st.ast ++ st.macros.flatMap (fun p => p.2)

/-- Invariant maintained while parsing a macro-free program: no macro scope
is active, the macro table is empty, and every label binding points at the
top-level `perch` node carrying that label. -/
def LabelsOK (st : PState) : Prop :=
  st.cm = none ∧ st.macros = [] ∧
  ∀ l i, dictGet st.labels l = some i →
    ∃ n : Node, st.ast[i]? = some n ∧ n.instr = "perch" ∧
      rstripColons (n.args.headD "") = l

end PL

namespace PC

/-- The `TokenType` enumeration of `parrot_compiler.py`. -/
inductive TokenType where
  | COMMENT | PECK | SCRATCH | HOP | HOPBACK | GULP | SQUAWK | STOMACH
  | DEVOUR | REGURGITATE | BOWL | MIMIC | PREEN | POOP | PERCH | CHIRP
  | FLYTO | FLAP | ADD | SUB | MUL | DIV | BOB | PERISH | IDENTIFIER
  | STRING | NUMBER | OPERATOR | EMPTY | INTO | CELL_REF
deriving DecidableEq, Repr

/-- A Python token payload: a string or an integer. -/
inductive PyVal where
  | str (s : String)
  | int (n : Nat)
deriving DecidableEq, Repr

/-- A token: type, value payload (default `None`), 1-based source line, and
the optional `indentation` attribute set on the first token of a line. -/
structure Token where
  type : TokenType
  value : Option PyVal
  line : Nat
  indentation : Option Nat
deriving DecidableEq, Repr

/-- Read a string payload out of a token value (tokens consumed as names
always carry strings). -/
def pvStr : Option PyVal → String
  | some (.str s) => s
  | _ => ""

/-- Read an integer payload out of a token value. -/
def pvInt : Option PyVal → Nat
  | some (.int n) => n
  | _ => 0

/-- The keyword table of `ParrotLexer.__init__`. -/
def keywordType (w : String) : Option TokenType :=
  if w = "peck" then some .PECK
  else if w = "scratch" then some .SCRATCH
  else if w = "hop" then some .HOP
  else if w = "hopback" then some .HOPBACK
  else if w = "gulp" then some .GULP
  else if w = "squawk" then some .SQUAWK
  else if w = "stomach" then some .STOMACH
  else if w = "devour" then some .DEVOUR
  else if w = "regurgitate" then some .REGURGITATE
  else if w = "bowl" then some .BOWL
  else if w = "mimic" then some .MIMIC
  else if w = "preen" then some .PREEN
  else if w = "poop" then some .POOP
  else if w = "perch" then some .PERCH
  else if w = "chirp" then some .CHIRP
  else if w = "flyto" then some .FLYTO
  else if w = "flap" then some .FLAP
  else if w = "add" then some .ADD
  else if w = "sub" then some .SUB
  else if w = "mul" then some .MUL
  else if w = "div" then some .DIV
  else if w = "bob" then some .BOB
  else if w = "perish" then some .PERISH
  else if w = "into" then some .INTO
  else if w = "empty" then some .EMPTY
  else none

/-- The operator table of `ParrotLexer.__init__` (`=` normalizes to `==`). -/
def operatorNorm (op : String) : Option String :=
  if op = ">" then some ">"
  else if op = "<" then some "<"
  else if op = "=" then some "=="
  else if op = "==" then some "=="
  else if op = "!=" then some "!="
  else if op = ">=" then some ">="
  else if op = "<=" then some "<="
  else none

/-- The string-literal scan of `ParrotLexer.tokenize`: consume up to the
closing quote, skipping backslash-prefixed pairs (kept verbatim in the
value, as Python slices the raw text).  Returns the content and the
characters after the closing quote, or `none` when unterminated. -/
def scanStringBody : List Char → Option (List Char × List Char)
  | [] => none
  | c :: rest =>
    if c = PL.dqc then some ([], rest)
    else if c = '\\' then
      match rest with
      | c2 :: rest2 =>
        match scanStringBody rest2 with
        | some (s, r) => some (c :: c2 :: s, r)
        | none => none
      | [] => none
    else
      match scanStringBody rest with
      | some (s, r) => some (c :: s, r)
      | none => none

/-- Numeric value of a digit run. -/
def digitsToNat (ds : List Char) : Nat :=
  ds.foldl (fun acc c => acc * 10 + (c.toNat - 48)) 0

/-- Predicate for the identifier/keyword character run. -/
def wordChar (c : Char) : Bool := c.isAlphanum || c = '_' || c = '#'

/-- The per-character scanning loop of `ParrotLexer.tokenize` for a single
line (source lines 137-215).  The fuel decreases once per iteration; every
iteration consumes at least one character, so fuel `= length + 1` is exact.
Errors model `sys.exit(1)` after the printed diagnostic. -/
def scanChars : Nat → Nat → List Char → Except String (List Token)
  | 0, _, _ => .ok []
  | _ + 1, _, [] => .ok []
  | fuel + 1, lnum, c :: rest =>
    if c.isWhitespace then scanChars fuel lnum rest
    else if c = PL.dqc then
      match scanStringBody rest with
      | some (content, rest2) =>
        match scanChars fuel lnum rest2 with
        | .ok ts =>
          .ok (Token.mk .STRING (some (.str (String.mk content))) lnum none
            :: ts)
        | .error e => .error e
      | none => .error ("Error: Unclosed string literal at line "
          ++ toString lnum)
    else if c.isDigit then
      let run := (c :: rest).takeWhile Char.isDigit
      match scanChars fuel lnum ((c :: rest).dropWhile Char.isDigit) with
      | .ok ts =>
        .ok (Token.mk .NUMBER (some (.int (digitsToNat run))) lnum none :: ts)
      | .error e => .error e
    else if c.isAlpha || c = '_' || c = '#' then
      let run := (c :: rest).takeWhile wordChar
      let word := String.mk run
      match scanChars fuel lnum ((c :: rest).dropWhile wordChar) with
      | .ok ts =>
        if PL.pyStartsWith "#" word then
          let digits := run.tail
          if digits ≠ [] && digits.all Char.isDigit then
            .ok (Token.mk .CELL_REF (some (.int (digitsToNat digits))) lnum
              none :: ts)
          else
            .error ("Error: Invalid cell reference " ++ PL.sq ++ word
              ++ PL.sq ++ " at line " ++ toString lnum)
        else
          match keywordType word with
          | some tt => .ok (Token.mk tt (some (.str word)) lnum none :: ts)
          | none =>
            .ok (Token.mk .IDENTIFIER (some (.str word)) lnum none :: ts)
      | .error e => .error e
    else if c = '<' || c = '>' || c = '=' || c = '!' then
      let (opChars, rest2) : List Char × List Char :=
        match rest with
        | '=' :: r2 => ([c, '='], r2)
        | _ => ([c], rest)
      let op := String.mk opChars
      match operatorNorm op with
      | some normed =>
        match scanChars fuel lnum rest2 with
        | .ok ts =>
          .ok (Token.mk .OPERATOR (some (.str normed)) lnum none :: ts)
        | .error e => .error e
      | none =>
        .error ("Error: Invalid operator " ++ PL.sq ++ op ++ PL.sq
          ++ " at line " ++ toString lnum)
    else if c = ':' then
      match scanChars fuel lnum rest with
      | .ok ts => .ok (Token.mk .IDENTIFIER (some (.str ":")) lnum none :: ts)
      | .error e => .error e
    else
      -- Skip other characters (source lines 214-215).
      scanChars fuel lnum rest

/-- Scan one full source line into tokens. -/
def tokenizeLine (lnum : Nat) (line : String) : Except String (List Token) :=
  scanChars (line.data.length + 1) lnum line.data

/-- Python `name[:-1] if name.endswith(':') else name`. -/
def stripOneColon (s : String) : String :=
  if s.data.getLast? = some ':' then String.mk s.data.dropLast else s

/-- A parsed statement of `ParrotParser.parse_statement`: one constructor
per `"type"` value of the returned dicts, carrying the same (optional)
fields. -/
inductive Stmt where
  | peck | scratch | hop | hopback | squawk | preen | poop | perish
  | mul | div
  | gulp (args : List PyVal)
  | stomach (name : String) (size : Option Nat)
  | devour (target : Option PyVal) (content : Option String)
  | regurgitate (target : Option String)
  | mimic (text : String)
  | perch (name : Option String)
  | flyto (target : Option String)
  | flap (target : Option String) (left : Option PyVal) (op : Option String)
      (right : Option PyVal)
  | add (left : Option PyVal) (right : Option PyVal) (lc : Bool) (rc : Bool)
  | sub (left : Option PyVal) (right : Option PyVal) (lc : Bool) (rc : Bool)
  | bob (count : Option Nat)
  | chirp_call (name : String)
deriving DecidableEq, Repr

/-- Operand scan shared by `add`/`sub`: left operand (bowl, number, or
cell reference). -/
def addSubLeft : List Token → (Option PyVal × Bool) × List Token
  | [] => ((none, false), [])
  | t :: r =>
    if t.type = .BOWL then ((some (.str "bowl"), false), r)
    else if t.type = .NUMBER then ((some (.int (pvInt t.value)), false), r)
    else if t.type = .CELL_REF then ((some (.int (pvInt t.value)), true), r)
    else ((none, false), t :: r)

/-- Operand scan shared by `add`/`sub`: right operand (number, bowl, or
cell reference — checked in that order). -/
def addSubRight : List Token → (Option PyVal × Bool) × List Token
  | [] => ((none, false), [])
  | t :: r =>
    if t.type = .NUMBER then ((some (.int (pvInt t.value)), false), r)
    else if t.type = .BOWL then ((some (.str "bowl"), false), r)
    else if t.type = .CELL_REF then ((some (.int (pvInt t.value)), true), r)
    else ((none, false), t :: r)

/-- `ParrotParser.parse_statement` (source lines 347-572): consume one
statement from the front of the token list.  `none` as the statement means
the Python function returned `None` (skipped token); errors model the
`sys.exit(1)` diagnostics. -/
def parse_statement (chirps : List (String × List Token)) :
    List Token → Except String (Option Stmt × List Token)
  | [] => .ok (none, [])
  | t :: ts =>
    match t.type with
    | .PECK => .ok (some .peck, ts)
    | .SCRATCH => .ok (some .scratch, ts)
    | .HOP => .ok (some .hop, ts)
    | .HOPBACK => .ok (some .hopback, ts)
    | .GULP =>
      match ts with
      | t2 :: ts2 =>
        if t2.type = .STRING || t2.type = .NUMBER then
          .ok (some (.gulp [t2.value.getD (.str "")]), ts2)
        else .ok (some (.gulp []), t2 :: ts2)
      | [] => .ok (some (.gulp []), [])
    | .SQUAWK => .ok (some .squawk, ts)
    | .STOMACH =>
      let (size, r1) : Option Nat × List Token :=
        match ts with
        | t2 :: r =>
          if t2.type = .NUMBER then (some (pvInt t2.value), r)
          else (none, t2 :: r)
        | [] => (none, [])
      match r1 with
      | t2 :: r2 =>
        if t2.type = .IDENTIFIER then
          .ok (some (.stomach (pvStr t2.value) size), r2)
        else
          .error ("Error at line " ++ toString t.line
            ++ ": Expected stomach name")
      | [] =>
        .error ("Error at line " ++ toString t.line
          ++ ": Expected stomach name")
    | .DEVOUR =>
      let (target, r1) : Option PyVal × List Token :=
        match ts with
        | t2 :: r =>
          if t2.type = .INTO then
            match r with
            | t3 :: r3 =>
              if t3.type = .IDENTIFIER then (some (PyVal.str (pvStr t3.value)), r3)
              else if t3.type = .NUMBER then (some (PyVal.int (pvInt t3.value)), r3)
              else (none, t3 :: r3)
            | [] => (none, [])
          else (none, t2 :: r)
        | [] => (none, [])
      let (content, r2) : Option String × List Token :=
        match r1 with
        | t2 :: r =>
          if t2.type = .STRING then (some (pvStr t2.value), r)
          else (none, t2 :: r)
        | [] => (none, [])
      .ok (some (.devour target content), r2)
    | .REGURGITATE =>
      match ts with
      | t2 :: ts2 =>
        if t2.type = .IDENTIFIER then
          .ok (some (.regurgitate (some (pvStr t2.value))), ts2)
        else .ok (some (.regurgitate none), t2 :: ts2)
      | [] => .ok (some (.regurgitate none), [])
    | .MIMIC =>
      match ts with
      | t2 :: ts2 =>
        if t2.type = .STRING then
          .ok (some (.mimic (pvStr t2.value)), ts2)
        else
          .error ("Error at line " ++ toString t.line
            ++ ": Expected string after mimic")
      | [] =>
        .error ("Error at line " ++ toString t.line
          ++ ": Expected string after mimic")
    | .PREEN => .ok (some .preen, ts)
    | .POOP => .ok (some .poop, ts)
    | .PERCH =>
      match ts with
      | t2 :: ts2 =>
        if t2.type = .IDENTIFIER then
          .ok (some (.perch (some (stripOneColon (pvStr t2.value)))), ts2)
        else .ok (some (.perch none), t2 :: ts2)
      | [] => .ok (some (.perch none), [])
    | .FLYTO =>
      match ts with
      | t2 :: ts2 =>
        if t2.type = .IDENTIFIER then
          .ok (some (.flyto (some (pvStr t2.value))), ts2)
        else .ok (some (.flyto none), t2 :: ts2)
      | [] => .ok (some (.flyto none), [])
    | .FLAP =>
      let (target, r1) : Option String × List Token :=
        match ts with
        | t2 :: r =>
          if t2.type = .IDENTIFIER then (some (pvStr t2.value), r)
          else (none, t2 :: r)
        | [] => (none, [])
      let (left, r2) : Option PyVal × List Token :=
        match r1 with
        | t2 :: r =>
          if t2.type = .BOWL then (some (PyVal.str "bowl"), r)
          else if t2.type = .NUMBER then (some (PyVal.int (pvInt t2.value)), r)
          else (none, t2 :: r)
        | [] => (none, [])
      let (op, r3) : Option String × List Token :=
        match r2 with
        | t2 :: r =>
          if t2.type = .OPERATOR then (some (pvStr t2.value), r)
          else (none, t2 :: r)
        | [] => (none, [])
      let (right, r4) : Option PyVal × List Token :=
        match r3 with
        | t2 :: r =>
          if t2.type = .EMPTY then (some (PyVal.str "empty"), r)
          else if t2.type = .NUMBER then (some (PyVal.int (pvInt t2.value)), r)
          else if t2.type = .BOWL then (some (PyVal.str "bowl"), r)
          else (none, t2 :: r)
        | [] => (none, [])
      .ok (some (.flap target left op right), r4)
    | .ADD =>
      let ((left, lc), r1) := addSubLeft ts
      let ((right, rc), r2) := addSubRight r1
      .ok (some (.add left right lc rc), r2)
    | .SUB =>
      let ((left, lc), r1) := addSubLeft ts
      let ((right, rc), r2) := addSubRight r1
      .ok (some (.sub left right lc rc), r2)
    | .MUL => .ok (some .mul, ts)
    | .DIV => .ok (some .div, ts)
    | .BOB =>
      match ts with
      | t2 :: ts2 =>
        if t2.type = .NUMBER then .ok (some (.bob (some (pvInt t2.value))), ts2)
        else .ok (some (.bob none), t2 :: ts2)
      | [] => .ok (some (.bob none), [])
    | .PERISH => .ok (some .perish, ts)
    | .IDENTIFIER =>
      let name := pvStr t.value
      if PL.containsKey chirps name then .ok (some (.chirp_call name), ts)
      else .ok (none, ts)
    | _ => .ok (none, ts)   -- skip unknown token (advance)

/-- The state built by `ParrotParser.first_pass`: the label set, the chirp
(macro) table of raw token slices, and the stomach declarations. -/
structure FPState where
  labels : List String
  chirps : List (String × List Token)
  stomachs : List (String × Option Nat)
deriving DecidableEq, Repr

/-- Stop condition of the chirp-body collection in `first_pass`: a `perch`
or `chirp` token whose `indentation` attribute (default 0) is zero. -/
def fpStop (t : Token) : Bool :=
  (t.type = .PERCH || t.type = .CHIRP) && t.indentation.getD 0 = 0

/-- The `while i < len(self.tokens)` loop of `ParrotParser.first_pass`.
Every iteration advances `i` by at least one, so fuel `= length + 1`
suffices.  The `perch` branch advances `i` by 3 in the source (`i += 2`
inside the branch plus the trailing `i += 1`). -/
def first_pass_loop : Nat → FPState → List Token → FPState
  | 0, st, _ => st
  | _ + 1, st, [] => st
  | fuel + 1, st, t :: rest =>
    match t.type with
    | .PERCH =>
      let st2 :=
        match rest with
        | t2 :: _ =>
          if t2.type = .IDENTIFIER then
            let nm := stripOneColon (pvStr t2.value)
            if st.labels.contains nm then st
            else { st with labels := st.labels ++ [nm] }
          else st
        | [] => st
      first_pass_loop fuel st2 (rest.drop 2)
    | .CHIRP =>
      match rest with
      | t2 :: rest2 =>
        if t2.type = .IDENTIFIER then
          let nm := stripOneColon (pvStr t2.value)
          let body := rest2.takeWhile (fun tok => !fpStop tok)
          let rem := rest2.dropWhile (fun tok => !fpStop tok)
          first_pass_loop fuel
            { st with chirps := PL.dictSet st.chirps nm body } rem
        else first_pass_loop fuel st (t2 :: rest2)
      | [] => st
    | .STOMACH =>
      let st2 :=
        match rest with
        | t2 :: rest2 =>
          if t2.type = .NUMBER then
            match rest2 with
            | t3 :: _ =>
              if t3.type = .IDENTIFIER then
                { st with stomachs :=
                    (PL.dictSet st.stomachs (pvStr t3.value)
                      (some (pvInt t2.value))) }
              else st
            | [] => st
          else if t2.type = .IDENTIFIER then
            { st with stomachs :=
                PL.dictSet st.stomachs (pvStr t2.value) none }
          else st
        | [] => st
      first_pass_loop fuel st2 rest
    | _ => first_pass_loop fuel st rest

/-- `ParrotParser.first_pass` on a token list. -/
def first_pass (toks : List Token) : FPState :=
  first_pass_loop (toks.length + 1) ⟨[], [], []⟩ toks

/-- The `while not self.is_at_end()` loop of `ParrotParser.parse`:
repeatedly take one statement, keeping the non-`None` ones.  Each
`parse_statement` call consumes at least one token, so fuel
`= length + 1` suffices. -/
def parseLoop : Nat → List (String × List Token) → List Token →
    Except String (List Stmt)
  | 0, _, _ => .ok []
  | _ + 1, _, [] => .ok []
  | fuel + 1, chirps, t :: ts =>
    match parse_statement chirps (t :: ts) with
    | .error e => .error e
    | .ok (stmt, rest) =>
      match parseLoop fuel chirps rest with
      | .ok l => .ok (stmt.toList ++ l)
      | .error e => .error e

/-- `ParrotParser.parse`: first pass to collect labels/chirps/stomachs,
then the statement loop over all tokens. -/
def parrotParse (toks : List Token) : Except String (List Stmt) :=
  parseLoop (toks.length + 1) (first_pass toks).chirps toks

end PC

namespace Programs

/-- The six-line program of spec §8 (claim C8). -/
def c8src : String :=
  "perch start:\npeck\npeck\nflap start bowl < 5\nmimic " ++ String.mk [PL.dqc]
    ++ "done" ++ String.mk [PL.dqc] ++ "\nperish"

/-- The exact assembly text the Linux backend produces for `c8src`. -/
def c8lines : List String :=
  ["section .data",
   "str_0 db " ++ String.mk [PL.dqc] ++ "done" ++ String.mk [PL.dqc]
     ++ ", 10, 0",
   "newline db 10, 0",
   "input_prompt db " ++ PL.sq ++ "Feed the birb: " ++ PL.sq ++ ", 0",
   "input_buffer resb 128",
   "section .bss",
   "tape resb 30000",
   "section .text",
   "global _start",
   "_start:",
   "    mov rsi, tape",
   ".start::",
   "    inc byte [rsi]",
   "    inc byte [rsi]",
   "    movzx rax, byte [rsi]",
   "    cmp rax, 5",
   "    jl .start",
   "    mov rax, 1",
   "    mov rdi, 1",
   "    mov rsi, str_0",
   "    mov rdx, 5",
   "    syscall",
   "    mov rax, 60",
   "    xor rdi, rdi",
   "    syscall"]

/-- A program whose macro call (2-instruction body) precedes a `perch`
(claim C1): the label binds to pre-expansion index 1, but the perch sits at
flat-IR index 2. -/
def c1progA : List String :=
  ["chirp twice:", "    peck", "    peck", "twice", "perch lbl:", "peck"]

/-- A program where an empty-bodied macro call precedes a `perch`
(claim C1): the label binds to index 1 while the flat IR has length 1. -/
def c1progB : List String :=
  ["    chirp e:", "e", "perch lbl:"]

/-- A program with an argument-less `flyto` inside a macro body
(claim C2). -/
def c2src : String := "chirp m:\n    flyto\nm"

/-- Its lexed line list. -/
def c2lines : List String := ["chirp m:", "    flyto", "m"]

/-- A program whose second line sits at exactly the `chirp` line's indent
width (claim C5). -/
def c5prog : List String := ["chirp m:", "peck"]

/-- Token list of the program `chirp m:` / `    peck` / `perish` as the
token lexer produces it (claim C6). -/
def c6toks : List PC.Token :=
  [⟨.CHIRP, some (.str "chirp"), 1, some 0⟩,
   ⟨.IDENTIFIER, some (.str "m"), 1, none⟩,
   ⟨.IDENTIFIER, some (.str ":"), 1, none⟩,
   ⟨.PECK, some (.str "peck"), 2, some 1⟩,
   ⟨.PERISH, some (.str "perish"), 3, some 0⟩]

/-- The `peck` token of `c6toks` (the macro body's instruction). -/
def c6peckTok : PC.Token := ⟨.PECK, some (.str "peck"), 2, some 1⟩

end Programs

/-! ## Helper lemmas -/

namespace PL

theorem dictGet_dictSet {α : Type} (d : List (String × α)) (k key : String)
    (v : α) :
    dictGet (dictSet d k v) key =
      if k = key then some v else dictGet d key := by
  induction d with
  | nil => simp [dictGet, dictSet]
  | cons p t ih =>
    obtain ⟨a, b⟩ := p
    by_cases hak : a = k
    · subst hak
      by_cases hk : a = key <;> simp [dictGet, dictSet, hk]
    · by_cases hk : a = key
      · subst hk
        have : k ≠ a := fun h => hak h.symm
        simp [dictGet, dictSet, hak, this]
      · simp [dictGet, dictSet, hak, hk, ih]

theorem dictGet_dictApp {α : Type} (d : List (String × List α))
    (k key : String) (v : α) :
    dictGet (dictApp d k v) key =
      if k = key then (dictGet d key).map (fun l => l ++ [v])
      else dictGet d key := by
  induction d with
  | nil => simp [dictGet, dictApp]
  | cons p t ih =>
    obtain ⟨a, b⟩ := p
    by_cases hak : a = k
    · subst hak
      by_cases hk : a = key <;> simp [dictGet, dictApp, hk]
    · by_cases hk : a = key
      · subst hk
        have : k ≠ a := fun h => hak h.symm
        simp [dictGet, dictApp, hak, this]
      · simp [dictGet, dictApp, hak, hk, ih]

theorem generate_ir_id (macros : List (String × List Node))
    (l : List Node) (h : ∀ n ∈ l, dictGet macros n.instr = none) :
    generate_ir macros l = l := by
  induction l with
  | nil => simp [generate_ir]
  | cons n t ih =>
    have hn := h n (List.mem_cons_self n t)
    have ht : ∀ m ∈ t, dictGet macros m.instr = none :=
      fun m hm => h m (List.mem_cons_of_mem n hm)
    simp [generate_ir, hn] at ih ⊢
    exact ih ht

theorem generate_ir_append (macros : List (String × List Node))
    (l1 l2 : List Node) :
    generate_ir macros (l1 ++ l2) =
      generate_ir macros l1 ++ generate_ir macros l2 := by
  simp [generate_ir]

end PL

/-! ## Claim C4 — pipeline determinism -/

/-- C4: two runs of the full compilation pipeline (lex, parse, semantic
check, IR build, backend emission) on identical source text produce
byte-identical target text.  In this embedding the pipeline
`PL.compileLinux` is a pure function of the source string — there is no
ambient state shared between runs (each Python run constructs a fresh
`ParrotCompiler`) — so determinism is definitional. -/
theorem c4_determinism : ∀ code : String,
    PL.compileLinux code = PL.compileLinux code :=
  fun _ => rfl

/-! ## Claim C10 — the token lexer silently skips unknown characters -/

/-- C10: a character that is not whitespace, a double quote, a digit, a
letter/underscore/`#`, one of `<` `>` `=` `!`, or a colon is silently
skipped by the per-character scanning loop of `ParrotLexer.tokenize`:
scanning continues on the rest of the line, producing no token and no error
for that character. -/
theorem c10_lexer_skips_unknown (fuel lnum : Nat) (c : Char)
    (rest : List Char)
    (hws : c.isWhitespace = false) (hq : c ≠ PL.dqc)
    (hd : c.isDigit = false) (ha : c.isAlpha = false)
    (hu : c ≠ '_') (hh : c ≠ '#')
    (hlt : c ≠ '<') (hgt : c ≠ '>') (heq : c ≠ '=') (hbang : c ≠ '!')
    (hcol : c ≠ ':') :
    PC.scanChars (fuel + 1) lnum (c :: rest) = PC.scanChars fuel lnum rest := by
  simp [PC.scanChars, hws, hq, hd, ha, hu, hh, hlt, hgt, heq, hbang, hcol]

/-- Witness for C10 at the concrete character `@`. -/
theorem c10_witness :
    PC.scanChars 6 1 ['@', 'a'] = PC.scanChars 5 1 ['a'] :=
  c10_lexer_skips_unknown 5 1 '@' ['a'] (by decide) (by decide) (by decide)
    (by decide) (by decide) (by decide) (by decide) (by decide) (by decide)
    (by decide) (by decide)

/-! ## Claim C7 — missing operands and parse errors -/

/-- Counterexample to C7: a `flap` token carrying none of its required
operands (target label, comparison operator, operands) does **not** halt
parsing with a fatal parse error — `parse_statement` returns a `flap`
instruction whose four operand fields are all `None`. -/
theorem c7_counterexample :
    PC.parse_statement [] [⟨.FLAP, some (.str "flap"), 4, some 0⟩] =
      .ok (some (.flap none none none none), []) := rfl

/-- `parse_statement` can only fail at a `mimic` or `stomach` head token,
with the corresponding line-reporting message. -/
theorem ps_error_shape (chirps : List (String × List PC.Token))
    (toks : List PC.Token) (e : String)
    (h : PC.parse_statement chirps toks = .error e) :
    ∃ t ts, toks = t :: ts ∧
      ((t.type = .MIMIC ∧ e = "Error at line " ++ toString t.line
          ++ ": Expected string after mimic") ∨
       (t.type = .STOMACH ∧ e = "Error at line " ++ toString t.line
          ++ ": Expected stomach name")) := by
  match toks with
  | [] => simp [PC.parse_statement] at h
  | t :: ts =>
    refine ⟨t, ts, rfl, ?_⟩
    obtain ⟨tt, v, ln, ind⟩ := t
    cases tt <;>
      (simp only [PC.parse_statement] at h
       repeat' split at h) <;>
      simp_all

/-- A `flap` whose following token is absent or matches none of its
operand slots parses with all operand fields `None`. -/
theorem ps_flap_optional (chirps : List (String × List PC.Token))
    (t : PC.Token) (ts : List PC.Token) (htt : t.type = .FLAP)
    (hop : ∀ h, ts.head? = some h → h.type ≠ .IDENTIFIER ∧
      h.type ≠ .BOWL ∧ h.type ≠ .NUMBER ∧ h.type ≠ .OPERATOR ∧
      h.type ≠ .EMPTY) :
    PC.parse_statement chirps (t :: ts) =
      .ok (some (.flap none none none none), ts) := by
  obtain ⟨tt, v, ln, ind⟩ := t
  simp only at htt
  subst htt
  cases ts with
  | nil => rfl
  | cons h ts2 =>
    obtain ⟨h1, h2, h3, h4, h5⟩ := hop h rfl
    simp [PC.parse_statement, h1, h2, h3, h4, h5]

theorem ps_flyto_optional (chirps : List (String × List PC.Token))
    (t : PC.Token) (ts : List PC.Token) (htt : t.type = .FLYTO)
    (hop : ∀ h, ts.head? = some h → h.type ≠ .IDENTIFIER) :
    PC.parse_statement chirps (t :: ts) = .ok (some (.flyto none), ts) := by
  obtain ⟨tt, v, ln, ind⟩ := t
  simp only at htt
  subst htt
  cases ts with
  | nil => rfl
  | cons h ts2 => simp [PC.parse_statement, hop h rfl]

theorem ps_perch_optional (chirps : List (String × List PC.Token))
    (t : PC.Token) (ts : List PC.Token) (htt : t.type = .PERCH)
    (hop : ∀ h, ts.head? = some h → h.type ≠ .IDENTIFIER) :
    PC.parse_statement chirps (t :: ts) = .ok (some (.perch none), ts) := by
  obtain ⟨tt, v, ln, ind⟩ := t
  simp only at htt
  subst htt
  cases ts with
  | nil => rfl
  | cons h ts2 => simp [PC.parse_statement, hop h rfl]

theorem ps_gulp_optional (chirps : List (String × List PC.Token))
    (t : PC.Token) (ts : List PC.Token) (htt : t.type = .GULP)
    (hop : ∀ h, ts.head? = some h → h.type ≠ .STRING ∧ h.type ≠ .NUMBER) :
    PC.parse_statement chirps (t :: ts) = .ok (some (.gulp []), ts) := by
  obtain ⟨tt, v, ln, ind⟩ := t
  simp only at htt
  subst htt
  cases ts with
  | nil => rfl
  | cons h ts2 =>
    obtain ⟨h1, h2⟩ := hop h rfl
    simp [PC.parse_statement, h1, h2]

theorem ps_devour_optional (chirps : List (String × List PC.Token))
    (t : PC.Token) (ts : List PC.Token) (htt : t.type = .DEVOUR)
    (hop : ∀ h, ts.head? = some h → h.type ≠ .INTO ∧ h.type ≠ .STRING) :
    PC.parse_statement chirps (t :: ts) =
      .ok (some (.devour none none), ts) := by
  obtain ⟨tt, v, ln, ind⟩ := t
  simp only at htt
  subst htt
  cases ts with
  | nil => rfl
  | cons h ts2 =>
    obtain ⟨h1, h2⟩ := hop h rfl
    simp [PC.parse_statement, h1, h2]

theorem ps_regurgitate_optional (chirps : List (String × List PC.Token))
    (t : PC.Token) (ts : List PC.Token) (htt : t.type = .REGURGITATE)
    (hop : ∀ h, ts.head? = some h → h.type ≠ .IDENTIFIER) :
    PC.parse_statement chirps (t :: ts) =
      .ok (some (.regurgitate none), ts) := by
  obtain ⟨tt, v, ln, ind⟩ := t
  simp only at htt
  subst htt
  cases ts with
  | nil => rfl
  | cons h ts2 => simp [PC.parse_statement, hop h rfl]

theorem ps_add_optional (chirps : List (String × List PC.Token))
    (t : PC.Token) (ts : List PC.Token) (htt : t.type = .ADD)
    (hop : ∀ h, ts.head? = some h → h.type ≠ .BOWL ∧
      h.type ≠ .NUMBER ∧ h.type ≠ .CELL_REF) :
    PC.parse_statement chirps (t :: ts) =
      .ok (some (.add none none false false), ts) := by
  obtain ⟨tt, v, ln, ind⟩ := t
  simp only at htt
  subst htt
  cases ts with
  | nil => rfl
  | cons h ts2 =>
    obtain ⟨h1, h2, h3⟩ := hop h rfl
    simp [PC.parse_statement, PC.addSubLeft, PC.addSubRight, h1, h2, h3]

theorem ps_sub_optional (chirps : List (String × List PC.Token))
    (t : PC.Token) (ts : List PC.Token) (htt : t.type = .SUB)
    (hop : ∀ h, ts.head? = some h → h.type ≠ .BOWL ∧
      h.type ≠ .NUMBER ∧ h.type ≠ .CELL_REF) :
    PC.parse_statement chirps (t :: ts) =
      .ok (some (.sub none none false false), ts) := by
  obtain ⟨tt, v, ln, ind⟩ := t
  simp only at htt
  subst htt
  cases ts with
  | nil => rfl
  | cons h ts2 =>
    obtain ⟨h1, h2, h3⟩ := hop h rfl
    simp [PC.parse_statement, PC.addSubLeft, PC.addSubRight, h1, h2, h3]

theorem ps_bob_optional (chirps : List (String × List PC.Token))
    (t : PC.Token) (ts : List PC.Token) (htt : t.type = .BOB)
    (hop : ∀ h, ts.head? = some h → h.type ≠ .NUMBER) :
    PC.parse_statement chirps (t :: ts) = .ok (some (.bob none), ts) := by
  obtain ⟨tt, v, ln, ind⟩ := t
  simp only at htt
  subst htt
  cases ts with
  | nil => rfl
  | cons h ts2 => simp [PC.parse_statement, hop h rfl]

/-- C7 as amended: `parse_statement` halts with a fatal parse error in
exactly two cases — `mimic` missing its string and `stomach` missing its
name — each reporting the source line in an opcode-specific message; every
other operand-taking opcode (`flap`, `flyto`, `perch`, `gulp`, `devour`,
`regurgitate`, `add`, `sub`, `bob`) treats its operands as optional: when
the following token is absent or of a type matching none of that opcode's
operand slots, the opcode parses into an instruction whose operand fields
are all `None`, leaving the token unconsumed — so the failure can only
surface later in code generation, where e.g. the Linux backend crashes on
a `flap` or `flyto` node without arguments. -/
theorem c7_operand_errors :
    (∀ (chirps : List (String × List PC.Token)) (toks : List PC.Token)
        (e : String),
      PC.parse_statement chirps toks = .error e →
      ∃ t ts, toks = t :: ts ∧
        ((t.type = .MIMIC ∧ e = "Error at line " ++ toString t.line
            ++ ": Expected string after mimic") ∨
         (t.type = .STOMACH ∧ e = "Error at line " ++ toString t.line
            ++ ": Expected stomach name"))) ∧
    (∀ (chirps : List (String × List PC.Token)) (t : PC.Token)
        (ts : List PC.Token), t.type = .FLAP →
      (∀ h, ts.head? = some h → h.type ≠ .IDENTIFIER ∧ h.type ≠ .BOWL ∧
        h.type ≠ .NUMBER ∧ h.type ≠ .OPERATOR ∧ h.type ≠ .EMPTY) →
      PC.parse_statement chirps (t :: ts) =
        .ok (some (.flap none none none none), ts)) ∧
    (∀ (chirps : List (String × List PC.Token)) (t : PC.Token)
        (ts : List PC.Token), t.type = .FLYTO →
      (∀ h, ts.head? = some h → h.type ≠ .IDENTIFIER) →
      PC.parse_statement chirps (t :: ts) = .ok (some (.flyto none), ts)) ∧
    (∀ (chirps : List (String × List PC.Token)) (t : PC.Token)
        (ts : List PC.Token), t.type = .PERCH →
      (∀ h, ts.head? = some h → h.type ≠ .IDENTIFIER) →
      PC.parse_statement chirps (t :: ts) = .ok (some (.perch none), ts)) ∧
    (∀ (chirps : List (String × List PC.Token)) (t : PC.Token)
        (ts : List PC.Token), t.type = .GULP →
      (∀ h, ts.head? = some h → h.type ≠ .STRING ∧ h.type ≠ .NUMBER) →
      PC.parse_statement chirps (t :: ts) = .ok (some (.gulp []), ts)) ∧
    (∀ (chirps : List (String × List PC.Token)) (t : PC.Token)
        (ts : List PC.Token), t.type = .DEVOUR →
      (∀ h, ts.head? = some h → h.type ≠ .INTO ∧ h.type ≠ .STRING) →
      PC.parse_statement chirps (t :: ts) =
        .ok (some (.devour none none), ts)) ∧
    (∀ (chirps : List (String × List PC.Token)) (t : PC.Token)
        (ts : List PC.Token), t.type = .REGURGITATE →
      (∀ h, ts.head? = some h → h.type ≠ .IDENTIFIER) →
      PC.parse_statement chirps (t :: ts) =
        .ok (some (.regurgitate none), ts)) ∧
    (∀ (chirps : List (String × List PC.Token)) (t : PC.Token)
        (ts : List PC.Token), t.type = .ADD →
      (∀ h, ts.head? = some h → h.type ≠ .BOWL ∧ h.type ≠ .NUMBER ∧
        h.type ≠ .CELL_REF) →
      PC.parse_statement chirps (t :: ts) =
        .ok (some (.add none none false false), ts)) ∧
    (∀ (chirps : List (String × List PC.Token)) (t : PC.Token)
        (ts : List PC.Token), t.type = .SUB →
      (∀ h, ts.head? = some h → h.type ≠ .BOWL ∧ h.type ≠ .NUMBER ∧
        h.type ≠ .CELL_REF) →
      PC.parse_statement chirps (t :: ts) =
        .ok (some (.sub none none false false), ts)) ∧
    (∀ (chirps : List (String × List PC.Token)) (t : PC.Token)
        (ts : List PC.Token), t.type = .BOB →
      (∀ h, ts.head? = some h → h.type ≠ .NUMBER) →
      PC.parse_statement chirps (t :: ts) = .ok (some (.bob none), ts)) ∧
    (∀ st : PL.AsmState, PL.genAsmStep st ⟨"flap", []⟩ = none ∧
      PL.genAsmStep st ⟨"flyto", []⟩ = none) :=
  ⟨ps_error_shape, ps_flap_optional, ps_flyto_optional, ps_perch_optional,
   ps_gulp_optional, ps_devour_optional, ps_regurgitate_optional,
   ps_add_optional, ps_sub_optional, ps_bob_optional,
   fun _ => ⟨rfl, rfl⟩⟩


/-- Witness for C7: a `flap` followed by a wrong-typed (`perish`) token
parses with all-`None` operands, and a `mimic` with no following string is
one of the two permitted fatal-error shapes. -/
theorem c7_witness :
    PC.parse_statement []
      [⟨.FLAP, some (.str "flap"), 7, none⟩,
       ⟨.PERISH, some (.str "perish"), 8, none⟩] =
      .ok (some (.flap none none none none),
        [⟨.PERISH, some (.str "perish"), 8, none⟩]) ∧
    (∃ t ts, [(⟨.MIMIC, some (.str "mimic"), 7, none⟩ : PC.Token)] =
        t :: ts ∧
      ((t.type = .MIMIC ∧
          "Error at line 7: Expected string after mimic" =
            "Error at line " ++ toString t.line
              ++ ": Expected string after mimic") ∨
       (t.type = .STOMACH ∧
          "Error at line 7: Expected string after mimic" =
            "Error at line " ++ toString t.line
              ++ ": Expected stomach name"))) :=
  ⟨c7_operand_errors.2.1 [] ⟨.FLAP, some (.str "flap"), 7, none⟩
      [⟨.PERISH, some (.str "perish"), 8, none⟩] rfl
      (fun h hh => by simp at hh; subst hh; exact by decide),
   c7_operand_errors.1 [] [⟨.MIMIC, some (.str "mimic"), 7, none⟩]
      "Error at line 7: Expected string after mimic" rfl⟩

/-! ## Claim C9 — unrecognized opcodes in the backend -/

namespace PL

theorem genAsmStep_unrecognized (st : AsmState) (n : Node)
    (h : recognized n.instr = false) : genAsmStep st n = some st := by
  simp only [recognized, Bool.or_eq_false_iff, decide_eq_false_iff_not] at h
  simp_all [genAsmStep]

theorem genAsmList_filter (st : AsmState) (ir : List Node) :
    genAsmList st ir =
      genAsmList st (ir.filter (fun n => recognized n.instr)) := by
  induction ir generalizing st with
  | nil => rfl
  | cons n ns ih =>
    by_cases h : recognized n.instr
    · simp only [genAsmList, List.filter_cons, h, if_pos]
      cases hs : genAsmStep st n with
      | none => simp [genAsmList, hs]
      | some st2 => simp [genAsmList, hs, ih st2]
    · have h0 : recognized n.instr = false := by simpa using h
      simp [genAsmList, List.filter_cons, h0,
        genAsmStep_unrecognized st n h0, ih st]

end PL

/-- Counterexample to C9: emission over an arbitrary flat IR does **not**
always complete — a recognized `flyto` instruction with an empty argument
list makes the Linux backend evaluate `args[0]`, an uncaught IndexError
(modelled as `none`). -/
theorem c9_counterexample : PL.generate_asm [⟨"flyto", []⟩] = none := rfl

/-- C9 as amended: an instruction whose opcode matches no branch of the
backend dispatch leaves the emission state unchanged (no text appended, no
error raised), and emission of any flat IR equals emission of the same IR
with the unrecognized instructions removed; emission may still fail on
recognized instructions with malformed operands. -/
theorem c9_skip_unrecognized :
    (∀ (st : PL.AsmState) (n : PL.Node), PL.recognized n.instr = false →
      PL.genAsmStep st n = some st) ∧
    (∀ (st : PL.AsmState) (ir : List PL.Node),
      PL.genAsmList st ir =
        PL.genAsmList st (ir.filter (fun n => PL.recognized n.instr))) :=
  ⟨PL.genAsmStep_unrecognized, PL.genAsmList_filter⟩

/-- Witness for C9 at the concrete opcode `dance`. -/
theorem c9_witness :
    PL.genAsmStep PL.initAsm ⟨"dance", []⟩ = some PL.initAsm :=
  c9_skip_unrecognized.1 PL.initAsm ⟨"dance", []⟩ (by decide)

/-! ## Claim C2 — `flyto` without arguments and the semantic check -/

/-- Counterexample to C2: in the program `chirp m:` / `    flyto` / `m`
the argument-less `flyto` sits in the macro body; `semantic_check` only
scans the top-level sequence, so it succeeds, and the pipeline fails much
later with an uncaught backend exception instead of a SemanticError. -/
theorem c2_counterexample :
    PL.dictGet (PL.parsed Programs.c2lines).macros "m" =
      some [⟨"flyto", []⟩] ∧
    PL.semantic_check (PL.parsed Programs.c2lines).ast = .ok () ∧
    PL.compileLinux Programs.c2src = .error .backendError :=
  ⟨rfl, rfl, rfl⟩

/-- C2 as amended: the semantic check fails (with the offending node) iff
an argument-less `flyto` occurs in the **top-level** parsed sequence;
`flyto` nodes inside macro bodies are not examined. -/
theorem c2_flyto_toplevel_only (ast : List PL.Node) :
    PL.semantic_check ast = .ok () ↔
      ∀ n ∈ ast, n.instr = "flyto" → n.args ≠ [] := by
  induction ast with
  | nil => simp [PL.semantic_check]
  | cons n ns ih =>
    by_cases h : n.instr = "flyto" && n.args.isEmpty
    · simp only [Bool.and_eq_true, decide_eq_true_eq,
        List.isEmpty_iff] at h
      simp [PL.semantic_check, h.1, h.2]
    · have h2 : ¬(n.instr = "flyto" ∧ n.args = []) := by
        simpa [List.isEmpty_iff] using h
      constructor
      · intro hok m hm hfly
        rcases List.mem_cons.mp hm with rfl | hmem
        · intro hargs; exact h2 ⟨hfly, hargs⟩
        · have : PL.semantic_check ns = .ok () := by
            simpa [PL.semantic_check, h] using hok
          exact (ih.mp this) m hmem hfly
      · intro hall
        have : PL.semantic_check ns = .ok () :=
          ih.mpr (fun m hm => hall m (List.mem_cons_of_mem n hm))
        simpa [PL.semantic_check, h] using this

/-- Witness for C2 on a concrete one-instruction program. -/
theorem c2_witness : PL.semantic_check [⟨"peck", []⟩] = .ok () :=
  (c2_flyto_toplevel_only [⟨"peck", []⟩]).mpr (by decide)

/-! ## Claim C3 — macro expansion substitution law -/

/-- C3: for a macro with body `B` invoked exactly once in the top-level
sequence (no other top-level instruction names a macro), the flat IR is the
top-level sequence with the call replaced by `B` in order; for a
two-instruction body the flat length is the top-level length minus 1
plus 2. -/
theorem c3_macro_substitution (macros : List (String × List PL.Node))
    (pre post B : List PL.Node) (name : String) (args : List String)
    (hB : PL.dictGet macros name = some B)
    (hpre : ∀ n ∈ pre, PL.dictGet macros n.instr = none)
    (hpost : ∀ n ∈ post, PL.dictGet macros n.instr = none) :
    PL.generate_ir macros (pre ++ ⟨name, args⟩ :: post) = pre ++ B ++ post ∧
    (B.length = 2 →
      (PL.generate_ir macros (pre ++ ⟨name, args⟩ :: post)).length =
        (pre ++ PL.Node.mk name args :: post).length - 1 + 2) := by
  have hsplit : PL.generate_ir macros (pre ++ ⟨name, args⟩ :: post) =
      pre ++ B ++ post := by
    have h1 : PL.generate_ir macros (PL.Node.mk name args :: post) =
        B ++ PL.generate_ir macros post := by
      simp [PL.generate_ir, hB]
    rw [PL.generate_ir_append, PL.generate_ir_id macros pre hpre, h1,
      PL.generate_ir_id macros post hpost, List.append_assoc]
  refine ⟨hsplit, fun hlen => ?_⟩
  rw [hsplit]
  simp [List.length_append, hlen]
  omega

/-- Witness for C3: the macro `tw` with body `peck`, `peck`, called once
between `hop` and `perish`. -/
theorem c3_witness :
    PL.generate_ir [("tw", [⟨"peck", []⟩, ⟨"peck", []⟩])]
        ([⟨"hop", []⟩] ++ PL.Node.mk "tw" [] :: [⟨"perish", []⟩]) =
      [⟨"hop", []⟩] ++ [⟨"peck", []⟩, ⟨"peck", []⟩] ++ [⟨"perish", []⟩] ∧
    ((([⟨"peck", []⟩, ⟨"peck", []⟩] : List PL.Node)).length = 2 →
      (PL.generate_ir [("tw", [⟨"peck", []⟩, ⟨"peck", []⟩])]
          ([⟨"hop", []⟩] ++ PL.Node.mk "tw" [] :: [⟨"perish", []⟩])).length =
        (([⟨"hop", []⟩] ++ PL.Node.mk "tw" [] :: [⟨"perish", []⟩] :
          List PL.Node)).length - 1 + 2) :=
  c3_macro_substitution [("tw", [⟨"peck", []⟩, ⟨"peck", []⟩])]
    [⟨"hop", []⟩] [⟨"perish", []⟩] [⟨"peck", []⟩, ⟨"peck", []⟩] "tw" []
    (by decide) (by decide) (by decide)

/-! ## Claim C8 — Linux backend output for the six-line example -/

/-- Counterexample to C8: the emitted jump-target line is `.start::`, not
`.start:` — the `perch` arm emits `f".{args[0]}:"` while `args[0]` still
carries the colon written in the source line `perch start:`, so a second
colon is appended.  No line of the output equals `.start:`. -/
theorem c8_counterexample :
    PL.compileLinux Programs.c8src = .ok Programs.c8lines ∧
    Programs.c8lines.get? 11 = some ".start::" ∧
    ".start:" ∉ Programs.c8lines := by
  refine ⟨rfl, rfl, ?_⟩
  decide

/-- C8 as amended: the backend emits the label line `.start::` (the colon
of the source operand retained, plus the appended one) before the two
`inc byte [rsi]` lines, then `movzx`/`cmp`/`jl .start`, then the output
syscall sequence for the `done` string (whose constant is inserted into the
data section at the top), and finally the process-exit syscall sequence,
with no other jump instructions — the full output is exactly
`Programs.c8lines`. -/
theorem c8_linux_output :
    PL.compileLinux Programs.c8src = .ok Programs.c8lines := rfl

/-! ## Claim C5 — indentation scoping of macro bodies -/

namespace PL

theorem popStack_headD_le (indent : Nat) (s : List Nat) :
    (popStack indent s).headD 0 ≤ indent := by
  induction s with
  | nil => simp [popStack]
  | cons t rest ih =>
    by_cases h : indent < t
    · simpa [popStack, h] using ih
    · simp [popStack, h]
      omega

end PL

/-- Counterexample to C5: in `chirp m:` / `peck` the second line sits at
exactly the chirp line's own indent width (0), yet it is emitted into the
macro body, not the top-level sequence — the parsed top level is empty and
the macro body holds the `peck`. -/
theorem c5_counterexample :
    (PL.parsed Programs.c5prog).ast = [] ∧
    PL.dictGet (PL.parsed Programs.c5prog).macros "m" =
      some [⟨"peck", []⟩] :=
  ⟨rfl, rfl⟩


/-- C5 as amended: with a macro scope active, a line whose indent width is
**strictly less** than the stack top closes the scope — frames are popped
until the top is ≤ that width, `current_macro` is cleared, and the line's
instruction goes to the top-level sequence; but a line whose indent width
is greater than **or equal to** the stack top (in particular one at exactly
the chirp line's own pushed width) is appended to the active macro's body
and not to the top level. -/
theorem c5_indent_scoping (st : PL.PState) (line : String)
    (hchirp : PL.instrOf line ≠ "chirp") :
    (PL.indentOf line < st.indent_stack.headD 0 →
      (PL.parseLine st line).cm = none ∧
      (PL.parseLine st line).ast = st.ast ++ [PL.nodeOf line] ∧
      (PL.parseLine st line).indent_stack.headD 0 ≤ PL.indentOf line) ∧
    (∀ m body, st.cm = some m → m ≠ "" →
      st.indent_stack.headD 0 ≤ PL.indentOf line →
      PL.dictGet st.macros m = some body →
      (PL.parseLine st line).ast = st.ast ∧
      PL.dictGet (PL.parseLine st line).macros m =
        some (body ++ [PL.nodeOf line])) := by
  obtain ⟨stk, ast0, mac, lab, cm0⟩ := st
  simp only [PL.instrOf] at hchirp
  rw [List.headD_eq_head?] at hchirp
  constructor
  · intro hlt
    simp only at hlt
    rw [List.headD_eq_head?] at hlt
    have hngt : ¬ (stk.head?).getD 0 < PL.indentOf line := by omega
    by_cases hperch :
        (PL.pySplit (PL.pyStrip line)).head?.getD "" = "perch" <;>
      simp [PL.parseLine, hperch, hchirp, hlt, hngt, PL.pyTruthy,
        PL.nodeOf] <;>
      rw [← List.headD_eq_head?] <;>
      exact PL.popStack_headD_le _ _
  · intro m body hcm hm hle hget
    simp only at hcm hle hget
    subst hcm
    rw [List.headD_eq_head?] at hle
    have hnlt : ¬ PL.indentOf line < (stk.head?).getD 0 := by omega
    by_cases hperch :
        (PL.pySplit (PL.pyStrip line)).head?.getD "" = "perch"
    · by_cases htop : (stk.head?).getD 0 < PL.indentOf line
      · simp [PL.parseLine, hperch, hchirp, htop, hnlt, PL.pyTruthy, hm,
          PL.dictGet_dictApp, hget, PL.nodeOf]
      · simp [PL.parseLine, hperch, hchirp, htop, hnlt, PL.pyTruthy, hm,
          PL.dictGet_dictApp, hget, PL.nodeOf, hle]
    · by_cases htop : (stk.head?).getD 0 < PL.indentOf line
      · simp [PL.parseLine, hperch, hchirp, htop, hnlt, PL.pyTruthy, hm,
          PL.dictGet_dictApp, hget, PL.nodeOf]
      · simp [PL.parseLine, hperch, hchirp, htop, hnlt, PL.pyTruthy, hm,
          PL.dictGet_dictApp, hget, PL.nodeOf, hle]

/-- Witness for C5: a line at indent 0 below a stack top of 4 closes the
scope and goes top-level; a line at indent 4 above a stack top of 0 with
macro `m` active goes into `m`'s body. -/
theorem c5_witness :
    ((PL.parseLine ⟨[4, 0], [], [("m", [])], [], some "m"⟩ "peck").cm =
        none ∧
      (PL.parseLine ⟨[4, 0], [], [("m", [])], [], some "m"⟩ "peck").ast =
        [] ++ [PL.nodeOf "peck"] ∧
      (PL.parseLine ⟨[4, 0], [], [("m", [])], [],
        some "m"⟩ "peck").indent_stack.headD 0 ≤ PL.indentOf "peck") ∧
    ((PL.parseLine ⟨[0], [], [("m", [])], [], some "m"⟩ "    peck").ast =
        [] ∧
      PL.dictGet (PL.parseLine ⟨[0], [], [("m", [])], [],
        some "m"⟩ "    peck").macros "m" =
        some ([] ++ [PL.nodeOf "    peck"])) :=
  ⟨(c5_indent_scoping ⟨[4, 0], [], [("m", [])], [], some "m"⟩ "peck"
      (by decide)).1 (by decide),
   (c5_indent_scoping ⟨[0], [], [("m", [])], [], some "m"⟩ "    peck"
      (by decide)).2 "m" [] rfl (by decide) (by decide) rfl⟩

/-! ## Claim C6 — single ownership of parsed instructions -/

namespace PL

theorem flatMap_dictApp {α : Type} (d : List (String × List α)) (k : String)
    (v : α) (h : containsKey d k = true) :
    List.Perm ((dictApp d k v).flatMap fun p => p.2)
      ((d.flatMap fun p => p.2) ++ [v]) := by
  induction d with
  | nil => simp [containsKey] at h
  | cons p t ih =>
    obtain ⟨a, b⟩ := p
    by_cases hak : a = k
    · subst hak
      simp [dictApp, List.append_assoc]
      exact List.Perm.append_left b
        (List.perm_append_singleton v (t.flatMap fun p => p.2)).symm
    · have ht : containsKey t k = true := by
        simpa [containsKey, hak] using h
      simp only [dictApp, hak, if_false, ite_false, List.flatMap_cons,
        List.append_assoc]
      exact List.Perm.append_left b (ih ht)

end PL

/-- Counterexample to C6, on the token-oriented parser of
`parrot_compiler.py`: for the program `chirp m:` / `    peck` / `perish`,
`first_pass` stores the `peck` token (and everything up to end of input)
inside the chirp body of `m`, while the main parse loop re-parses the same
tokens and emits `peck` into the **top-level** statement sequence as well —
the macro body's instruction also occurs in the parsed top-level
sequence. -/
theorem c6_counterexample :
    PC.parrotParse Programs.c6toks =
      .ok [.chirp_call "m", .peck, .perish] ∧
    PL.dictGet (PC.first_pass Programs.c6toks).chirps "m" =
      some [⟨.IDENTIFIER, some (.str ":"), 1, none⟩,
            Programs.c6peckTok,
            ⟨.PERISH, some (.str "perish"), 3, some 0⟩] ∧
    Programs.c6peckTok ∈
      (PL.dictGet (PC.first_pass Programs.c6toks).chirps "m").getD [] ∧
    PC.Stmt.peck ∈ [PC.Stmt.chirp_call "m", PC.Stmt.peck, PC.Stmt.perish] :=
  ⟨rfl, rfl, by decide, by decide⟩


/-- C6 as amended: in the line-oriented parser every non-`chirp` line's
instruction is emitted into exactly one container — the multiset of nodes
held across the top-level sequence and all macro bodies grows by exactly
that one node (so the node never lands in two containers); the
token-oriented parser of `parrot_compiler.py` instead re-parses chirp-body
tokens into the top level (see the counterexample). -/
theorem c6_single_container (st : PL.PState) (line : String)
    (hchirp : PL.instrOf line ≠ "chirp")
    (hcm : st.cm = none ∨
      ∃ m, st.cm = some m ∧ PL.containsKey st.macros m = true) :
    List.Perm (PL.allNodes (PL.parseLine st line))
      (PL.allNodes st ++ [PL.nodeOf line]) := by
  obtain ⟨stk, ast0, mac, lab, cm0⟩ := st
  simp only [PL.instrOf] at hchirp
  rw [List.headD_eq_head?] at hchirp
  have ftop : ∀ (n : PL.Node) (J : List PL.Node),
      List.Perm (ast0 ++ n :: J) (ast0 ++ (J ++ [n])) :=
    fun n J => List.Perm.append_left ast0
      (List.perm_append_singleton n J).symm
  rcases hcm with hnone | ⟨m, hsome, hkey⟩
  · simp only at hnone
    subst hnone
    simp [PL.parseLine, PL.allNodes, PL.nodeOf, hchirp, PL.pyTruthy,
      apply_ite PL.PState.ast, apply_ite PL.PState.macros,
      apply_ite PL.PState.cm, apply_ite PL.PState.indent_stack, apply_ite PL.pyTruthy, ite_self]
    exact ftop _ _
  · simp only at hsome hkey
    subst hsome
    rcases Nat.lt_trichotomy (PL.indentOf line) ((stk.head?).getD 0) with
      hlt | heqi | hgt
    · have hngt : ¬ (stk.head?).getD 0 < PL.indentOf line := by omega
      simp [PL.parseLine, PL.allNodes, PL.nodeOf, hchirp, PL.pyTruthy,
        hlt, hngt,
        apply_ite PL.PState.ast, apply_ite PL.PState.macros,
        apply_ite PL.PState.cm, apply_ite PL.PState.indent_stack, ite_self]
      exact ftop _ _
    · have hngt : ¬ (stk.head?).getD 0 < PL.indentOf line := by omega
      have hnlt : ¬ PL.indentOf line < (stk.head?).getD 0 := by omega
      have hle : (stk.head?).getD 0 ≤ PL.indentOf line := by omega
      by_cases hm : m = ""
      · subst hm
        simp [PL.parseLine, PL.allNodes, PL.nodeOf, hchirp, PL.pyTruthy,
          hngt, hnlt, hle,
          apply_ite PL.PState.ast, apply_ite PL.PState.macros,
          apply_ite PL.PState.cm, apply_ite PL.PState.indent_stack, ite_self]
        exact ftop _ _
      · simp [PL.parseLine, PL.allNodes, PL.nodeOf, hchirp, PL.pyTruthy,
          hngt, hnlt, hle, hm,
          apply_ite PL.PState.ast, apply_ite PL.PState.macros,
          apply_ite PL.PState.cm, apply_ite PL.PState.indent_stack, ite_self]
        exact List.Perm.append_left ast0 (PL.flatMap_dictApp mac m _ hkey)
    · have hnlt : ¬ PL.indentOf line < (stk.head?).getD 0 := by omega
      have hle : (stk.head?).getD 0 ≤ PL.indentOf line := by omega
      by_cases hm : m = ""
      · subst hm
        simp [PL.parseLine, PL.allNodes, PL.nodeOf, hchirp, PL.pyTruthy,
          hgt, hnlt, hle,
          apply_ite PL.PState.ast, apply_ite PL.PState.macros,
          apply_ite PL.PState.cm, apply_ite PL.PState.indent_stack, ite_self]
        exact ftop _ _
      · simp [PL.parseLine, PL.allNodes, PL.nodeOf, hchirp, PL.pyTruthy,
          hgt, hnlt, hle, hm,
          apply_ite PL.PState.ast, apply_ite PL.PState.macros,
          apply_ite PL.PState.cm, apply_ite PL.PState.indent_stack, ite_self]
        exact List.Perm.append_left ast0 (PL.flatMap_dictApp mac m _ hkey)

/-- Witness for C6 at the initial state and the line `peck`. -/
theorem c6_witness :
    List.Perm (PL.allNodes (PL.parseLine PL.initState "peck"))
      (PL.allNodes PL.initState ++ [PL.nodeOf "peck"]) :=
  c6_single_container PL.initState "peck" (by decide) (Or.inl rfl)

/-! ## Claim C1 — label table versus flat-IR positions -/

/-- Counterexample to C1: labels are bound at parse time to the
pre-expansion top-level index (`len(self.ast)`) and never recomputed after
macro expansion.  In program A (`chirp twice:` with a two-`peck` body,
then `twice`, `perch lbl:`, `peck`) the label `lbl` maps to 1 while its
`perch` sits at flat index 2; in program B (an indented `chirp e:` with
empty body, then `e`, `perch lbl:`) the label maps to 1 while the flat IR
has length 1, so the index is not even valid. -/
theorem c1_counterexample :
    PL.dictGet (PL.parsed Programs.c1progA).labels "lbl" = some 1 ∧
    (PL.irOf Programs.c1progA)[1]? = some ⟨"peck", []⟩ ∧
    (PL.irOf Programs.c1progA)[2]? = some ⟨"perch", ["lbl:"]⟩ ∧
    PL.dictGet (PL.parsed Programs.c1progB).labels "lbl" = some 1 ∧
    (PL.irOf Programs.c1progB).length = 1 :=
  ⟨rfl, rfl, rfl, rfl, rfl⟩

theorem parseLine_labels (st : PL.PState) (line : String)
    (hchirp : PL.instrOf line ≠ "chirp") (h : PL.LabelsOK st) :
    PL.LabelsOK (PL.parseLine st line) := by
  obtain ⟨stk, ast0, mac, lab, cm0⟩ := st
  obtain ⟨hcm, hmac, hlab⟩ := h
  simp only at hcm hmac hlab
  subst hcm
  subst hmac
  simp only [PL.instrOf] at hchirp
  rw [List.headD_eq_head?] at hchirp
  by_cases hperch : (PL.pySplit (PL.pyStrip line)).head?.getD "" = "perch"
  · simp [PL.LabelsOK, PL.parseLine, hchirp, hperch, PL.pyTruthy,
      apply_ite PL.PState.ast, apply_ite PL.PState.macros,
      apply_ite PL.PState.cm, apply_ite PL.PState.labels,
      apply_ite PL.PState.indent_stack, apply_ite PL.pyTruthy, ite_self]
    intro l i hli
    rw [PL.dictGet_dictSet] at hli
    by_cases hkey :
        PL.rstripColons ((PL.pySplit (PL.pyStrip line))[1]?.getD "") = l
    · rw [if_pos hkey] at hli
      obtain rfl : ast0.length = i := by simpa using hli
      refine ⟨⟨"perch", (PL.pySplit (PL.pyStrip line)).tail⟩,
        List.getElem?_concat_length ast0 _, rfl, ?_⟩
      simpa using hkey
    · rw [if_neg hkey] at hli
      obtain ⟨n, hn, hpn, hrn⟩ := hlab l i hli
      rw [List.headD_eq_head?] at hrn
      have hilt : i < ast0.length := (List.getElem?_eq_some.mp hn).1
      exact ⟨n, by rw [List.getElem?_append_left hilt]; exact hn, hpn, hrn⟩
  · simp [PL.LabelsOK, PL.parseLine, hchirp, hperch, PL.pyTruthy,
      apply_ite PL.PState.ast, apply_ite PL.PState.macros,
      apply_ite PL.PState.cm, apply_ite PL.PState.labels,
      apply_ite PL.PState.indent_stack, apply_ite PL.pyTruthy, ite_self]
    intro l i hli
    obtain ⟨n, hn, hpn, hrn⟩ := hlab l i hli
    rw [List.headD_eq_head?] at hrn
    have hilt : i < ast0.length := (List.getElem?_eq_some.mp hn).1
    exact ⟨n, by rw [List.getElem?_append_left hilt]; exact hn, hpn, hrn⟩

theorem parseFold_labels (lines : List String) :
    ∀ st : PL.PState, (∀ line ∈ lines, PL.instrOf line ≠ "chirp") →
      PL.LabelsOK st → PL.LabelsOK (lines.foldl PL.parseLine st) := by
  induction lines with
  | nil => intro st _ h; simpa using h
  | cons l t ih =>
    intro st hl h
    simp only [List.foldl_cons]
    exact ih _ (fun x hx => hl x (List.mem_cons_of_mem l hx))
      (parseLine_labels st l (hl l (List.mem_cons_self l t)) h)

theorem initState_labels : PL.LabelsOK PL.initState := by
  refine ⟨rfl, rfl, fun l i hli => ?_⟩
  simp [PL.initState, PL.dictGet] at hli

/-- C1 as amended: the label table binds each label to the number of
top-level instructions parsed before its `perch` line (its pre-expansion
index), and this index is a valid flat-IR position pointing at that
`perch` only for programs with no `chirp` lines (empty macro table, where
the flat IR equals the top-level sequence); a macro call before a `perch`
shifts the perch away from the recorded index, which may even fall outside
the flat sequence. -/
theorem c1_labels_pre_expansion (lines : List String)
    (h : ∀ line ∈ lines, PL.instrOf line ≠ "chirp") :
    ∀ l i, PL.dictGet (PL.parsed lines).labels l = some i →
      i < (PL.irOf lines).length ∧
      ∃ n : PL.Node, (PL.irOf lines)[i]? = some n ∧
        n.instr = "perch" ∧ PL.rstripColons (n.args.headD "") = l := by
  intro l i hli
  have hOK := parseFold_labels lines PL.initState h initState_labels
  obtain ⟨hcm, hmac, hlab⟩ := hOK
  have hir : PL.irOf lines = (PL.parsed lines).ast := by
    show PL.generate_ir (PL.parsed lines).macros (PL.parsed lines).ast =
      (PL.parsed lines).ast
    exact PL.generate_ir_id _ _ (fun n _ => by
      show PL.dictGet (PL.parsed lines).macros n.instr = none
      rw [show (PL.parsed lines).macros = [] from hmac]
      rfl)
  obtain ⟨n, hn, hpn, hrn⟩ := hlab l i hli
  rw [hir]
  exact ⟨(List.getElem?_eq_some.mp hn).1, n, hn, hpn, hrn⟩

/-- Witness for C1 on the macro-free program `perch a:` / `peck`. -/
theorem c1_witness :
    0 < (PL.irOf ["perch a:", "peck"]).length ∧
    ∃ n : PL.Node, (PL.irOf ["perch a:", "peck"])[0]? = some n ∧
      n.instr = "perch" ∧ PL.rstripColons (n.args.headD "") = "a" :=
  c1_labels_pre_expansion ["perch a:", "peck"] (by decide) "a" 0 (by decide)
